import Mathlib

/-!
Verification of the evtx filtering pipeline (`src/main.rs`).

The per-record pipeline of `process_evtx_file`, its helper functions
(`get_event_id_from_xml`, `get_target_user_name_from_xml`,
`get_time_created_from_xml`, `in_date_range`, `parse_date`,
`parse_time_created`) and the serde `Event` schema are shallowly embedded
below.  Chrono's strftime parsing for the two format strings used by the
program ("%Y-%m-%d %H:%M:%S" and "%Y-%m-%d %H:%M:%S%.f UTC") is modelled
at the character level, following chrono 0.4's parser: numeric items trim
leading whitespace and scan at most `width` digits (a signed year accepts
an explicit sign followed by arbitrarily many digits), literal items match
exactly, a whitespace item skips any amount of whitespace, `%.f` consumes
an optional dot-prefixed run of digits, and the parsed fields are finally
validated as a calendar date and wall-clock time.
-/

namespace Evtx

/-- A chrono `DateTime<Utc>` value: a valid UTC calendar date with a
wall-clock time of day and nanoseconds (a leap second is stored, as in
chrono, as second 59 with `nano ≥ 10^9`). -/
structure DateTime where
  year : Int
  month : Nat
  day : Nat
  hour : Nat
  minute : Nat
  second : Nat
  nano : Nat
deriving DecidableEq, Repr

/-- Mixed-radix encoding of a datetime into a single integer.  Every radix
strictly exceeds the largest value the corresponding field can take on a
valid datetime, so on valid datetimes the encoding is order-isomorphic to
chrono's instant order on `DateTime<Utc>`. -/
def DateTime.key (t : DateTime) : Int :=
  (((((t.year * 13 + t.month) * 32 + t.day) * 32 + t.hour) * 64 + t.minute) * 64
      + t.second) * 2147483648 + t.nano

/-- The `<` comparison on `DateTime<Utc>` used by `in_date_range`. -/
def DateTime.lt (a b : DateTime) : Bool := decide (a.key < b.key)

/-- The `<=` comparison on `DateTime<Utc>`. -/
def DateTime.le (a b : DateTime) : Bool := decide (a.key ≤ b.key)

/-! ### Character-level model of chrono's strftime parsing -/

/-- Numeric value of an ASCII digit. -/
def digitVal (c : Char) : Nat := c.toNat - 48

/-- Value of a run of ASCII digits, most significant first (chrono's
`scan::number` accumulator). -/
def charsToNat (ds : List Char) : Nat := ds.foldl (fun n c => n * 10 + digitVal c) 0

/-- Rust `str::trim_start`: drop leading whitespace. -/
def trimWs (cs : List Char) : List Char := cs.dropWhile Char.isWhitespace

/-- chrono `scan::number(s, 1, maxw)`: consume at most `maxw` leading ASCII
digits, requiring at least one. -/
def scanNumber (maxw : Nat) (cs : List Char) : Option (Nat × List Char) :=
  let ds := (cs.takeWhile Char.isDigit).take maxw
  if ds.isEmpty then none
  else some (charsToNat ds, cs.drop ds.length)

/-- chrono `scan::number(s, 1, usize::MAX)`: consume all leading digits. -/
def scanNumberAll (cs : List Char) : Option (Nat × List Char) :=
  let ds := cs.takeWhile Char.isDigit
  if ds.isEmpty then none
  else some (charsToNat ds, cs.drop ds.length)

/-- chrono numeric item `%Y` (signed, width 4): trim whitespace, then an
optional explicit sign followed by an unbounded digit run, or an unsigned
run of at most four digits. -/
def parseYear (cs : List Char) : Option (Int × List Char) :=
  match trimWs cs with
  | c :: rest =>
    if c = '-' then (scanNumberAll rest).map (fun p => (-(p.1 : Int), p.2))
    else if c = '+' then (scanNumberAll rest).map (fun p => ((p.1 : Int), p.2))
    else (scanNumber 4 (c :: rest)).map (fun p => ((p.1 : Int), p.2))
  | [] => none

/-- chrono unsigned numeric item of width 2 (`%m`, `%d`, `%H`, `%M`, `%S`):
trim whitespace, then at most two digits. -/
def parseNum2 (cs : List Char) : Option (Nat × List Char) := scanNumber 2 (trimWs cs)

/-- A literal character of the format string: must match exactly. -/
def litc (c : Char) (cs : List Char) : Option (List Char) :=
  match cs with
  | c' :: rest => if c' = c then some rest else none
  | [] => none

/-- chrono `scan::nanosecond`: at least one digit; the first nine digits
(scaled to nanoseconds) give the value and any further digits are
skipped. -/
def scanNanos (cs : List Char) : Option (Nat × List Char) :=
  let ds := cs.takeWhile Char.isDigit
  if ds.isEmpty then none
  else some (charsToNat (ds.take 9) * 10 ^ (9 - min ds.length 9), cs.drop ds.length)

/-- chrono fixed item `%.f`: an optional dot followed by a digit run; when
no dot is present nothing is consumed and the nanosecond field stays 0. -/
def parseFrac (cs : List Char) : Option (Nat × List Char) :=
  match cs with
  | '.' :: rest => scanNanos rest
  | _ => some (0, cs)

/-- The `%Y-%m-%d` items of the format strings. -/
def parseYmd (cs : List Char) : Option (Int × Nat × Nat × List Char) := do
  let (y, cs) ← parseYear cs
  let cs ← litc '-' cs
  let (mo, cs) ← parseNum2 cs
  let cs ← litc '-' cs
  let (d, cs) ← parseNum2 cs
  some (y, mo, d, cs)

/-- The `%H:%M:%S` items of the format strings. -/
def parseHms (cs : List Char) : Option (Nat × Nat × Nat × List Char) := do
  let (h, cs) ← parseNum2 cs
  let cs ← litc ':' cs
  let (mi, cs) ← parseNum2 cs
  let cs ← litc ':' cs
  let (s, cs) ← parseNum2 cs
  some (h, mi, s, cs)

/-- The item sequence shared by both format strings of the program:
`%Y-%m-%d %H:%M:%S` (the space is chrono's whitespace item).  Returns the
parsed fields and the unconsumed rest. -/
def parseYmdHms (cs : List Char) : Option (Int × Nat × Nat × Nat × Nat × Nat × List Char) := do
  let (y, mo, d, cs) ← parseYmd cs
  let (h, mi, s, cs) ← parseHms (trimWs cs)
  some (y, mo, d, h, mi, s, cs)

/-! ### Calendar validation (chrono `Parsed::to_naive_datetime_with_offset`) -/

/-- Proleptic Gregorian leap year. -/
def isLeapYear (y : Int) : Bool := y % 4 == 0 && (y % 100 != 0 || y % 400 == 0)

/-- Number of days of month `m` of year `y`. -/
def daysInMonth (y : Int) (m : Nat) : Nat :=
  if m = 2 then (if isLeapYear y then 29 else 28)
  else if m = 4 ∨ m = 6 ∨ m = 9 ∨ m = 11 then 30
  else 31

/-- chrono `NaiveDate::from_ymd_opt` validity: year within chrono's
representable range, month 1–12, day 1–(days of the month). -/
def dateValid (y : Int) (m d : Nat) : Bool :=
  decide (-262144 ≤ y ∧ y ≤ 262143 ∧ 1 ≤ m ∧ m ≤ 12 ∧ 1 ≤ d ∧ d ≤ daysInMonth y m)

/-- Assemble the parsed fields into a datetime, validating date and time as
chrono's `Parsed` does; a 60th second is folded into second 59 with the
nanosecond field shifted by `10^9` (chrono's leap-second encoding). -/
def mkDateTime (y : Int) (mo d h mi s nano : Nat) : Option DateTime :=
  if dateValid y mo d = true ∧ h ≤ 23 ∧ mi ≤ 59 ∧ s ≤ 60 then
    if s = 60 then some ⟨y, mo, d, h, mi, 59, nano + 1000000000⟩
    else some ⟨y, mo, d, h, mi, s, nano⟩
  else none

/-- Function `parse_time_created` (src/main.rs:204):
`NaiveDateTime::parse_from_str(time_str, "%Y-%m-%d %H:%M:%S%.f UTC")`
mapped into `DateTime<Utc>`; `None` on any parse failure. -/
def parse_time_created (time_str : String) : Option DateTime :=
  match parseYmdHms time_str.data with
  | some (y, mo, d, h, mi, s, rest) =>
    match parseFrac rest with
    | some (nano, rest) =>
      if trimWs rest = ['U', 'T', 'C'] then mkDateTime y mo d h mi s nano else none
    | none => none
  | none => none

/-- chrono `Utc.datetime_from_str(s, "%Y-%m-%d %H:%M:%S")`: the shared item
sequence followed by end of input; no fractional seconds are parsed, so the
nanosecond field is 0. -/
def datetime_from_str (s : String) : Option DateTime :=
  match parseYmdHms s.data with
  | some (y, mo, d, h, mi, sec, rest) => if rest = [] then mkDateTime y mo d h mi sec 0 else none
  | none => none

/-- Function `parse_date` (src/main.rs:198): appends `" 00:00:00"` to the date-only
argument and parses with `"%Y-%m-%d %H:%M:%S"`.  The Rust function panics
(`expect`) on failure; the panic is modelled as `none`. -/
def parse_date (date_str : String) : Option DateTime :=
  datetime_from_str (date_str ++ " 00:00:00")

/-! ### The serde `Event` schema and the XML payload model -/

/-- One `<Data Name="...">value</Data>` element of `<EventData>`
(struct `Data`, src/main.rs:247). -/
structure Data where
  name : String
  value : String
deriving DecidableEq, Repr

/-- Struct `EventData` (src/main.rs:240): the `Data` children, defaulting
to the empty list when absent. -/
structure EventData where
  data : List Data
deriving DecidableEq, Repr

/-- Struct `TimeCreated` (src/main.rs:233): its required `SystemTime`
attribute. -/
structure TimeCreated where
  system_time : String
deriving DecidableEq, Repr

/-- Struct `System` (src/main.rs:223): a required 16-bit `EventID` and an
optional `TimeCreated`. -/
structure System where
  event_id : Nat
  time_created : Option TimeCreated
deriving DecidableEq, Repr

/-- Struct `Event` (src/main.rs:213): `System` and `EventData` are both
required fields with no serde default. -/
structure Event where
  system : System
  event_data : EventData
deriving DecidableEq, Repr

/-- Abstract content of a `<System>` element as seen by the deserializer:
the numeric content of `<EventID>` when present and numeric, and the
`SystemTime` attribute of `<TimeCreated>` when that element is present. -/
structure SystemDoc where
  eventID : Option Nat
  timeCreated : Option String
deriving DecidableEq, Repr

/-- Abstract content of one record's XML payload: the raw text (the line
written on a match) together with the pieces `serde_xml_rs` looks at — the
optional `<System>` element (its `<EventID>` content as a number when
numeric, and the `SystemTime` of its `<TimeCreated>` when present) and the
optional `<EventData>` element with its `<Data>` children. -/
structure XmlDoc where
  raw : String
  system : Option SystemDoc
  eventData : Option (List Data)
deriving DecidableEq, Repr

/-- Deserialization `serde_xml_rs::from_str::<Event>`: succeeds iff `<System>` is present
with a numeric `EventID` that fits in `u16`, and `<EventData>` is present
(it has no serde default, unlike its `Data` children and unlike
`TimeCreated`, which default to `[]` and `None`). -/
def from_str (x : XmlDoc) : Option Event :=
  match x.system with
  | none => none
  | some sys =>
    match sys.eventID with
    | none => none
    | some eid =>
      if eid ≤ 65535 then
        match x.eventData with
        | none => none
        | some ds => some ⟨⟨eid, sys.timeCreated.map TimeCreated.mk⟩, ⟨ds⟩⟩
      else none

/-- Function `get_event_id_from_xml` (src/main.rs:151). -/
def get_event_id_from_xml (x : XmlDoc) : Option Nat :=
  match from_str x with
  | some event => some event.system.event_id
  | none => none

/-- Function `get_target_user_name_from_xml` (src/main.rs:161): the value of the
first `Data` element named exactly `TargetUserName`. -/
def get_target_user_name_from_xml (x : XmlDoc) : Option String :=
  match from_str x with
  | some event => (event.event_data.data.find? (fun d => d.name == "TargetUserName")).map Data.value
  | none => none

/-- Function `get_time_created_from_xml` (src/main.rs:173). -/
def get_time_created_from_xml (x : XmlDoc) : Option DateTime :=
  match from_str x with
  | some event =>
    match event.system.time_created with
    | some system_time => parse_time_created system_time.system_time
    | none => none
  | none => none

/-! ### The per-record pipeline of `process_evtx_file` -/

/-- Constant `EVENT_IDS` (src/main.rs:43): the fixed allow-set of event categories. -/
def EVENT_IDS : List Nat := [4624, 4625, 4768, 4769, 4776, 4672]

/-- The first early return of `in_date_range`: `*event_time < start`. -/
def beforeStart (event_time : DateTime) (start : Option DateTime) : Bool :=
  match start with
  | some s => event_time.lt s
  | none => false

/-- The second early return of `in_date_range`: `*event_time > end`. -/
def afterEnd (event_time : DateTime) (stop : Option DateTime) : Bool :=
  match stop with
  | some e => e.lt event_time
  | none => false

/-- Function `in_date_range` (src/main.rs:183). -/
def in_date_range (event_time : DateTime) (start stop : Option DateTime) : Bool :=
  !beforeStart event_time start && !afterEnd event_time stop

/-- The body of the `for_each` closure of `process_evtx_file`
(src/main.rs:110–147), for one element of the record stream: the list of
lines this record's processing writes to the sink (`[]` when the record is
skipped or filtered out; the `Err` branch only logs).  Each occurrence of
`[xml_output]` below corresponds to one `writeln!` site of the source. -/
def processRecord (owned_users : List String) (start_date end_date : Option DateTime)
    (record : Except String XmlDoc) : List String :=
  match record with
  | .error _ => []
  | .ok record =>
    let xml_output := record.raw
    match get_event_id_from_xml record with
    | some event_id =>
      if event_id ∈ EVENT_IDS then
        match get_time_created_from_xml record with
        | some event_time =>
          if in_date_range event_time start_date end_date then
            if owned_users.isEmpty then [xml_output]
            else
              match get_target_user_name_from_xml record with
              | some target_user_name =>
                if target_user_name ∈ owned_users then [xml_output] else []
              | none => []
          else []
        | none => []
      else []
    | none => []

/-- Function `process_evtx_file` (src/main.rs:101) over a file's decoded record
stream: the lines written to the output sink.  (The real program writes
them in rayon completion order; the model fixes stream order, which agrees
up to permutation and is irrelevant to the per-record claims.) -/
def process_evtx_file (records : List (Except String XmlDoc)) (owned_users : List String)
    (start_date end_date : Option DateTime) : List String :=
  records.flatMap (processRecord owned_users start_date end_date)

/-! ### Spec-side definitions and concrete records -/

/-- Formalization of the spec's output condition (spec §8, first testable
property), written from the spec's words, to be compared with
`processRecord`: category in the fixed allow-set, AND no time bound
supplied OR the record's timestamp within the window, AND allow-list empty
OR the record's actor name a member. -/
def specC1Matches (users : List String) (s e : Option DateTime) (xml : XmlDoc) : Prop :=
  (∃ eid, get_event_id_from_xml xml = some eid ∧ eid ∈ EVENT_IDS) ∧
  ((s = none ∧ e = none) ∨
    (∃ t, get_time_created_from_xml xml = some t ∧ in_date_range t s e = true)) ∧
  (users = [] ∨ ∃ u, get_target_user_name_from_xml xml = some u ∧ u ∈ users)

/-- Recognizer for date-only argument strings in the exact form
`YYYY-MM-DD`: four ASCII digits, a hyphen, two digits, a hyphen, two
digits. -/
def isDateOnlyForm (s : String) : Bool :=
  match s.data with
  | [a, b, c, d, h1, e, f, h2, g, h] =>
    a.isDigit && b.isDigit && c.isDigit && d.isDigit && (h1 = '-') &&
      e.isDigit && f.isDigit && (h2 = '-') && g.isDigit && h.isDigit
  | _ => false

/-- The year, month and day denoted by a `YYYY-MM-DD` string (junk on any
other shape). -/
def dateOnlyYMD (s : String) : Int × Nat × Nat :=
  match s.data with
  | [a, b, c, d, _, e, f, _, g, h] =>
    ((charsToNat [a, b, c, d] : Int), charsToNat [e, f], charsToNat [g, h])
  | _ => (0, 0, 0)

/-- A record with an allowed category (4624) and no `TimeCreated` element. -/
def xmlNoTime : XmlDoc := ⟨"evtNoTime", some ⟨some 4624, none⟩, some []⟩

/-- A record with an allowed category (4625) whose `SystemTime` is in ISO
8601 layout, which `parse_time_created` rejects. -/
def xmlBadTime : XmlDoc :=
  ⟨"evtBadTime", some ⟨some 4625, some "2024-08-18T13:45:55.479781Z"⟩, some []⟩

/-- A record with an allowed category, a parseable timestamp and a
`TargetUserName` of `alice`. -/
def xmlGood : XmlDoc :=
  ⟨"evtGood", some ⟨some 4624, some "2024-08-18 13:45:55.479781 UTC"⟩,
    some [⟨"TargetUserName", "alice"⟩]⟩

/-- A record whose category 4634 is outside the allow-set. -/
def xmlOtherId : XmlDoc :=
  ⟨"evtOther", some ⟨some 4634, some "2024-08-18 13:45:55.479781 UTC"⟩, some []⟩

/-- A record whose XML has no `<System>` element, so deserialization into
`Event` fails. -/
def xmlNoSystem : XmlDoc := ⟨"evtNoSystem", none, some []⟩

/-- A record with an allowed category and a parseable timestamp but no
`<EventData>` element. -/
def xmlNoED : XmlDoc :=
  ⟨"evtNoED", some ⟨some 4624, some "2024-08-18 13:45:55.479781 UTC"⟩, none⟩

/-! ## Helper lemmas -/

theorem isDigit_not_ws {c : Char} (h : c.isDigit = true) : c.isWhitespace = false := by
  cases hw : c.isWhitespace
  · rfl
  · exfalso
    have hc : ((c = ' ' ∨ c = '\t') ∨ c = '\r') ∨ c = '\n' := by
      simpa [Char.isWhitespace] using hw
    rcases hc with ((rfl | rfl) | rfl) | rfl <;> exact absurd h (by decide)

theorem trimWs_digits (ds rest : List Char) (hds : ∀ x ∈ ds, x.isDigit = true)
    (hne : ds ≠ []) : trimWs (ds ++ rest) = ds ++ rest := by
  cases ds with
  | nil => exact absurd rfl hne
  | cons a as =>
    have ha := isDigit_not_ws (hds a (by simp))
    simp [trimWs, List.dropWhile_cons, ha]

theorem takeWhile_middle (p : Char → Bool) (ds : List Char) (c : Char) (rest : List Char)
    (hds : ∀ x ∈ ds, p x = true) (hc : p c = false) :
    (ds ++ c :: rest).takeWhile p = ds := by
  induction ds with
  | nil => simp [List.takeWhile_cons, hc]
  | cons a as ih =>
    have ha := hds a (by simp)
    have ih' := ih (fun x hx => hds x (by simp [hx]))
    simp [List.takeWhile_cons, ha, ih']

theorem scanNumber_exact (maxw : Nat) (ds : List Char) (c : Char) (rest : List Char)
    (hds : ∀ x ∈ ds, x.isDigit = true) (hne : ds ≠ []) (hlen : ds.length ≤ maxw)
    (hc : c.isDigit = false) :
    scanNumber maxw (ds ++ c :: rest) = some (charsToNat ds, c :: rest) := by
  unfold scanNumber
  rw [takeWhile_middle _ ds c rest hds hc, List.take_of_length_le hlen]
  simp only [List.isEmpty_iff, List.drop_left]
  simp [hne]

theorem parseNum2_exact (ds : List Char) (c : Char) (rest : List Char)
    (hds : ∀ x ∈ ds, x.isDigit = true) (hne : ds ≠ []) (hlen : ds.length ≤ 2)
    (hc : c.isDigit = false) :
    parseNum2 (ds ++ c :: rest) = some (charsToNat ds, c :: rest) := by
  unfold parseNum2
  rw [trimWs_digits ds (c :: rest) hds hne]
  exact scanNumber_exact 2 ds c rest hds hne hlen hc

theorem parseYear_exact (ds : List Char) (c : Char) (rest : List Char)
    (hds : ∀ x ∈ ds, x.isDigit = true) (hne : ds ≠ []) (hlen : ds.length ≤ 4)
    (hc : c.isDigit = false) :
    parseYear (ds ++ c :: rest) = some ((charsToNat ds : Int), c :: rest) := by
  unfold parseYear
  rw [trimWs_digits ds (c :: rest) hds hne]
  cases ds with
  | nil => exact absurd rfl hne
  | cons a as =>
    have ha : a.isDigit = true := hds a (by simp)
    have ha1 : ¬(a = '-') := fun h => absurd (h ▸ ha) (by decide)
    have ha2 : ¬(a = '+') := fun h => absurd (h ▸ ha) (by decide)
    simp only [List.cons_append]
    rw [if_neg ha1, if_neg ha2, ← List.cons_append, scanNumber_exact 4 (a :: as) c rest hds hne hlen hc]
    rfl

theorem parseYmd_dateform (a b c d e f g h : Char) (tail : List Char)
    (ha : a.isDigit = true) (hb : b.isDigit = true) (hc : c.isDigit = true)
    (hd : d.isDigit = true) (he : e.isDigit = true) (hf : f.isDigit = true)
    (hg : g.isDigit = true) (hh : h.isDigit = true) :
    parseYmd ([a, b, c, d, '-', e, f, '-', g, h] ++ ' ' :: tail) =
      some ((charsToNat [a, b, c, d] : Int), charsToNat [e, f], charsToNat [g, h], ' ' :: tail) := by
  have e1 : [a, b, c, d, '-', e, f, '-', g, h] ++ ' ' :: tail =
      [a, b, c, d] ++ '-' :: ([e, f] ++ '-' :: ([g, h] ++ ' ' :: tail)) := by simp
  rw [e1]
  unfold parseYmd
  rw [parseYear_exact [a, b, c, d] '-' _
      (by intro x hx; simp only [List.mem_cons, List.not_mem_nil, or_false] at hx
          rcases hx with rfl | rfl | rfl | rfl <;> assumption)
      (by simp) (by simp) (by decide)]
  simp only [Option.bind_eq_bind, Option.some_bind, litc, eq_self_iff_true, if_true]
  rw [parseNum2_exact [e, f] '-' _
      (by intro x hx; simp only [List.mem_cons, List.not_mem_nil, or_false] at hx
          rcases hx with rfl | rfl <;> assumption)
      (by simp) (by simp) (by decide)]
  simp only [Option.bind_eq_bind, Option.some_bind, litc, eq_self_iff_true, if_true]
  rw [parseNum2_exact [g, h] ' ' tail
      (by intro x hx; simp only [List.mem_cons, List.not_mem_nil, or_false] at hx
          rcases hx with rfl | rfl <;> assumption)
      (by simp) (by simp) (by decide)]
  rfl

theorem parseYmdHms_dateform (a b c d e f g h : Char)
    (ha : a.isDigit = true) (hb : b.isDigit = true) (hc : c.isDigit = true)
    (hd : d.isDigit = true) (he : e.isDigit = true) (hf : f.isDigit = true)
    (hg : g.isDigit = true) (hh : h.isDigit = true) :
    parseYmdHms ([a, b, c, d, '-', e, f, '-', g, h] ++ (" 00:00:00").data) =
      some ((charsToNat [a, b, c, d] : Int), charsToNat [e, f], charsToNat [g, h],
        0, 0, 0, []) := by
  have e0 : (" 00:00:00").data = ' ' :: ("00:00:00").data := rfl
  unfold parseYmdHms
  rw [e0, parseYmd_dateform a b c d e f g h _ ha hb hc hd he hf hg hh]
  rfl

theorem string_data_append (s t : String) : (s ++ t).data = s.data ++ t.data := by
  cases s; cases t; rfl

theorem scanNumber_suffix (maxw : Nat) (cs : List Char) (n : Nat) (rest : List Char)
    (h : scanNumber maxw cs = some (n, rest)) : rest <:+ cs := by
  simp only [scanNumber] at h
  split at h
  · exact Option.noConfusion h
  · simp only [Option.some.injEq, Prod.mk.injEq] at h
    obtain ⟨-, h2⟩ := h
    subst h2
    exact List.drop_suffix _ _

theorem scanNumberAll_suffix (cs : List Char) (n : Nat) (rest : List Char)
    (h : scanNumberAll cs = some (n, rest)) : rest <:+ cs := by
  simp only [scanNumberAll] at h
  split at h
  · exact Option.noConfusion h
  · simp only [Option.some.injEq, Prod.mk.injEq] at h
    obtain ⟨-, h2⟩ := h
    subst h2
    exact List.drop_suffix _ _

theorem scanNanos_suffix (cs : List Char) (n : Nat) (rest : List Char)
    (h : scanNanos cs = some (n, rest)) : rest <:+ cs := by
  simp only [scanNanos] at h
  split at h
  · exact Option.noConfusion h
  · simp only [Option.some.injEq, Prod.mk.injEq] at h
    obtain ⟨-, h2⟩ := h
    subst h2
    exact List.drop_suffix _ _

theorem parseYear_suffix (cs : List Char) (y : Int) (rest : List Char)
    (h : parseYear cs = some (y, rest)) : rest <:+ cs := by
  have htrim : trimWs cs <:+ cs := List.dropWhile_suffix _
  unfold parseYear at h
  split at h
  next c rest' heq =>
    rw [heq] at htrim
    split at h
    · simp only [Option.map_eq_some'] at h
      obtain ⟨⟨n, r⟩, h1, h2⟩ := h
      obtain ⟨-, rfl⟩ := Prod.mk.injEq .. ▸ h2
      exact ((scanNumberAll_suffix _ _ _ h1).trans (List.suffix_cons _ _)).trans htrim
    split at h
    · simp only [Option.map_eq_some'] at h
      obtain ⟨⟨n, r⟩, h1, h2⟩ := h
      obtain ⟨-, rfl⟩ := Prod.mk.injEq .. ▸ h2
      exact ((scanNumberAll_suffix _ _ _ h1).trans (List.suffix_cons _ _)).trans htrim
    · simp only [Option.map_eq_some'] at h
      obtain ⟨⟨n, r⟩, h1, h2⟩ := h
      obtain ⟨-, rfl⟩ := Prod.mk.injEq .. ▸ h2
      exact (scanNumber_suffix _ _ _ _ h1).trans htrim
  next heq => exact Option.noConfusion h

theorem parseNum2_suffix (cs : List Char) (n : Nat) (rest : List Char)
    (h : parseNum2 cs = some (n, rest)) : rest <:+ cs :=
  (scanNumber_suffix _ _ _ _ h).trans (List.dropWhile_suffix _)

theorem litc_suffix (c : Char) (cs rest : List Char)
    (h : litc c cs = some rest) : rest <:+ cs := by
  unfold litc at h
  split at h
  next c' rest' =>
    split at h
    · obtain rfl := Option.some.injEq .. ▸ h
      exact List.suffix_cons _ _
    · exact Option.noConfusion h
  next => exact Option.noConfusion h

theorem parseFrac_suffix (cs : List Char) (n : Nat) (rest : List Char)
    (h : parseFrac cs = some (n, rest)) : rest <:+ cs := by
  unfold parseFrac at h
  split at h
  next rest' =>
    exact (scanNanos_suffix _ _ _ h).trans (List.suffix_cons _ _)
  next =>
    simp only [Option.some.injEq, Prod.mk.injEq] at h
    obtain ⟨-, h2⟩ := h
    subst h2
    exact List.suffix_refl _

theorem parseYmd_suffix (cs : List Char) (y : Int) (mo d : Nat) (rest : List Char)
    (h : parseYmd cs = some (y, mo, d, rest)) : rest <:+ cs := by
  unfold parseYmd at h
  simp only [Option.bind_eq_bind, Option.bind_eq_some] at h
  obtain ⟨⟨y1, cs1⟩, h1, h⟩ := h
  obtain ⟨cs2, h2, h⟩ := h
  obtain ⟨⟨mo1, cs3⟩, h3, h⟩ := h
  obtain ⟨cs4, h4, h⟩ := h
  obtain ⟨⟨d1, cs5⟩, h5, h⟩ := h
  simp only [Option.some.injEq, Prod.mk.injEq] at h
  obtain ⟨-, -, -, rfl⟩ := h
  exact ((((parseNum2_suffix _ _ _ h5).trans (litc_suffix _ _ _ h4)).trans
    (parseNum2_suffix _ _ _ h3)).trans (litc_suffix _ _ _ h2)).trans
    (parseYear_suffix _ _ _ h1)

theorem parseHms_suffix (cs : List Char) (hh mi s : Nat) (rest : List Char)
    (h : parseHms cs = some (hh, mi, s, rest)) : rest <:+ cs := by
  unfold parseHms at h
  simp only [Option.bind_eq_bind, Option.bind_eq_some] at h
  obtain ⟨⟨h1v, cs1⟩, h1, h⟩ := h
  obtain ⟨cs2, h2, h⟩ := h
  obtain ⟨⟨mi1, cs3⟩, h3, h⟩ := h
  obtain ⟨cs4, h4, h⟩ := h
  obtain ⟨⟨s1, cs5⟩, h5, h⟩ := h
  simp only [Option.some.injEq, Prod.mk.injEq] at h
  obtain ⟨-, -, -, rfl⟩ := h
  exact ((((parseNum2_suffix _ _ _ h5).trans (litc_suffix _ _ _ h4)).trans
    (parseNum2_suffix _ _ _ h3)).trans (litc_suffix _ _ _ h2)).trans
    (parseNum2_suffix _ _ _ h1)

theorem parseYmdHms_suffix (cs : List Char) (y : Int) (mo d hh mi s : Nat)
    (rest : List Char) (h : parseYmdHms cs = some (y, mo, d, hh, mi, s, rest)) :
    rest <:+ cs := by
  unfold parseYmdHms at h
  simp only [Option.bind_eq_bind, Option.bind_eq_some] at h
  obtain ⟨⟨y1, mo1, d1, cs1⟩, h1, h⟩ := h
  obtain ⟨⟨h1v, mi1, s1, cs2⟩, h2, h⟩ := h
  simp only [Option.some.injEq, Prod.mk.injEq] at h
  obtain ⟨-, -, -, -, -, -, rfl⟩ := h
  exact ((parseHms_suffix _ _ _ _ _ h2).trans (List.dropWhile_suffix _)).trans
    (parseYmd_suffix _ _ _ _ _ h1)

/-- Any string accepted by `parse_time_created` ends with the literal
characters `UTC`. -/
theorem parse_time_created_utc_suffix (s : String) (t : DateTime)
    (h : parse_time_created s = some t) : ['U', 'T', 'C'] <:+ s.data := by
  unfold parse_time_created at h
  split at h
  next y mo d hh mi sec rest heq =>
    split at h
    next nano rest2 heq2 =>
      split at h
      next hutc =>
        have h1 : ['U', 'T', 'C'] <:+ rest2 := hutc ▸ List.dropWhile_suffix _
        exact (h1.trans (parseFrac_suffix _ _ _ heq2)).trans
          (parseYmdHms_suffix _ _ _ _ _ _ _ _ heq)
      next => exact Option.noConfusion h
    next heq2 => exact Option.noConfusion h
  next => exact Option.noConfusion h

/-- Master characterization of the per-record pipeline: the record's
payload is written iff the category, time and actor filters all pass. -/
theorem processRecord_mem_iff (users : List String) (s e : Option DateTime) (xml : XmlDoc) :
    xml.raw ∈ processRecord users s e (Except.ok xml) ↔
      (∃ eid, get_event_id_from_xml xml = some eid ∧ eid ∈ EVENT_IDS) ∧
      (∃ t, get_time_created_from_xml xml = some t ∧ in_date_range t s e = true) ∧
      (users = [] ∨ ∃ u, get_target_user_name_from_xml xml = some u ∧ u ∈ users) := by
  simp only [processRecord]
  cases hid : get_event_id_from_xml xml with
  | none => simp
  | some eid =>
    by_cases hin : eid ∈ EVENT_IDS
    · cases ht : get_time_created_from_xml xml with
      | none => simp
      | some t =>
        by_cases hr : in_date_range t s e = true
        · by_cases hu : users = []
          · subst hu
            simp [hin, hr]
          · cases hu' : get_target_user_name_from_xml xml with
            | none => simp [hin, hr, hu, List.isEmpty_iff]
            | some u =>
              by_cases hmem : u ∈ users <;>
                simp [hin, hr, hu, hmem, List.isEmpty_iff]
        · simp [hin, hr]
    · simp [hin]

/-! ## Claim theorems -/

/-- C1 (counterexample): the claimed output condition is refuted by a
record with an allowed category (4624) but no timestamp, processed with no
time bounds and an empty allow-list: the spec-side condition holds, yet the
code never writes the record (it requires a parseable timestamp even when
no time bound was supplied). -/
theorem claim1_counterexample :
    ¬ ((xmlNoTime.raw ∈ processRecord [] none none (Except.ok xmlNoTime)) ↔
        specC1Matches [] none none xmlNoTime) := by
  intro hiff
  have hspec : specC1Matches [] none none xmlNoTime :=
    ⟨⟨4624, by decide, by decide⟩, Or.inl ⟨rfl, rfl⟩, Or.inl rfl⟩
  have hmem := hiff.mpr hspec
  rw [show processRecord [] none none (Except.ok xmlNoTime) = [] from by decide] at hmem
  exact List.not_mem_nil _ hmem

/-- C1 (amended): a record's payload appears in the output iff its
category is in the fixed allow-set, AND its timestamp is present and
parseable and `in_date_range` holds for the supplied bounds (an absent
bound imposing no constraint), AND the allow-list is empty or its actor
name is present and a member. -/
theorem claim1_amended_output_iff (users : List String) (s e : Option DateTime) (xml : XmlDoc) :
    xml.raw ∈ processRecord users s e (Except.ok xml) ↔
      (∃ eid, get_event_id_from_xml xml = some eid ∧ eid ∈ EVENT_IDS) ∧
      (∃ t, get_time_created_from_xml xml = some t ∧ in_date_range t s e = true) ∧
      (users = [] ∨ ∃ u, get_target_user_name_from_xml xml = some u ∧ u ∈ users) :=
  processRecord_mem_iff users s e xml

/-- C2 (counterexample): a record whose timestamp fails to parse is NOT
included when no time bound is supplied — refuted at a record with
category 4625 (allowed), an ISO-8601 `SystemTime`, empty allow-list and no
bounds. -/
theorem claim2_counterexample :
    ¬ (get_time_created_from_xml xmlBadTime = none →
        xmlBadTime.raw ∈ processRecord [] none none (Except.ok xmlBadTime)) := by
  intro hcl
  have hmem := hcl (by decide)
  rw [show processRecord [] none none (Except.ok xmlBadTime) = [] from by decide] at hmem
  exact List.not_mem_nil _ hmem

/-- C2 (amended): a record whose timestamp field is absent or fails to
parse is always excluded, whether or not any time bound is active. -/
theorem claim2_amended_no_timestamp_excluded (users : List String) (s e : Option DateTime)
    (xml : XmlDoc) (h : get_time_created_from_xml xml = none) :
    processRecord users s e (Except.ok xml) = [] := by
  simp only [processRecord]
  cases hid : get_event_id_from_xml xml with
  | none => simp
  | some eid =>
    by_cases hin : eid ∈ EVENT_IDS <;> simp [hin, h]

/-- Witness for the amended C2 at the ISO-8601-timestamped record. -/
theorem claim2_witness : processRecord [] none none (Except.ok xmlBadTime) = [] :=
  claim2_amended_no_timestamp_excluded [] none none xmlBadTime (by decide)

/-- C5: the allow-set is exactly {4624, 4625, 4768, 4769, 4776, 4672}, and
a record whose category is outside it is never emitted. -/
theorem claim5_category_filter (users : List String) (s e : Option DateTime) (xml : XmlDoc)
    (eid : Nat) (hid : get_event_id_from_xml xml = some eid) (hnot : eid ∉ EVENT_IDS) :
    processRecord users s e (Except.ok xml) = [] ∧
      (∀ n : Nat, n ∈ EVENT_IDS ↔
        (n = 4624 ∨ n = 4625 ∨ n = 4768 ∨ n = 4769 ∨ n = 4776 ∨ n = 4672)) := by
  constructor
  · simp only [processRecord]
    rw [hid]
    simp [hnot]
  · intro n
    simp [EVENT_IDS]

/-- Witness for C5 at a record with category 4634. -/
theorem claim5_witness :
    processRecord [] none none (Except.ok xmlOtherId) = [] ∧
      (∀ n : Nat, n ∈ EVENT_IDS ↔
        (n = 4624 ∨ n = 4625 ∨ n = 4768 ∨ n = 4769 ∨ n = 4776 ∨ n = 4672)) :=
  claim5_category_filter [] none none xmlOtherId 4634 (by decide) (by decide)

/-- C6: past the category and time filters, an empty allow-list emits the
record unconditionally; a non-empty allow-list emits it iff its
`TargetUserName` is present and an exact-string member; in particular a
record with no `TargetUserName` is excluded when a list is supplied. -/
theorem claim6_actor_filter (users : List String) (s e : Option DateTime) (xml : XmlDoc)
    (eid : Nat) (t : DateTime)
    (hid : get_event_id_from_xml xml = some eid) (hin : eid ∈ EVENT_IDS)
    (ht : get_time_created_from_xml xml = some t) (hr : in_date_range t s e = true) :
    (users = [] → processRecord users s e (Except.ok xml) = [xml.raw]) ∧
    (users ≠ [] →
      (processRecord users s e (Except.ok xml) = [xml.raw] ↔
        ∃ u, get_target_user_name_from_xml xml = some u ∧ u ∈ users)) ∧
    (users ≠ [] → get_target_user_name_from_xml xml = none →
      processRecord users s e (Except.ok xml) = []) := by
  refine ⟨?_, ?_, ?_⟩
  · intro hu
    subst hu
    simp [processRecord, hid, hin, ht, hr]
  · intro hu
    cases hu' : get_target_user_name_from_xml xml with
    | none => simp [processRecord, hid, hin, ht, hr, hu', List.isEmpty_iff, hu]
    | some u =>
      by_cases hmem : u ∈ users <;>
        simp [processRecord, hid, hin, ht, hr, hu', List.isEmpty_iff, hu, hmem]
  · intro hu hnone
    simp [processRecord, hid, hin, ht, hr, hnone, List.isEmpty_iff, hu]

/-- Witness for C6: allow-list `["alice"]` and a record with
`TargetUserName` `alice`, category 4624 and a parseable timestamp. -/
theorem claim6_witness :
    (["alice"] = ([] : List String) →
      processRecord ["alice"] none none (Except.ok xmlGood) = [xmlGood.raw]) ∧
    (["alice"] ≠ ([] : List String) →
      (processRecord ["alice"] none none (Except.ok xmlGood) = [xmlGood.raw] ↔
        ∃ u, get_target_user_name_from_xml xmlGood = some u ∧ u ∈ ["alice"])) ∧
    (["alice"] ≠ ([] : List String) → get_target_user_name_from_xml xmlGood = none →
      processRecord ["alice"] none none (Except.ok xmlGood) = []) :=
  claim6_actor_filter ["alice"] none none xmlGood 4624 ⟨2024, 8, 18, 13, 45, 55, 479781000⟩
    (by decide) (by decide) (by decide) (by decide)

/-- C7: the per-record pipeline writes at most one line for any record, on
every execution path. -/
theorem claim7_at_most_one_write (users : List String) (s e : Option DateTime)
    (rec : Except String XmlDoc) : (processRecord users s e rec).length ≤ 1 := by
  rcases rec with msg | xml
  · simp [processRecord]
  · simp only [processRecord]
    cases hid : get_event_id_from_xml xml with
    | none => simp
    | some eid =>
      by_cases hin : eid ∈ EVENT_IDS
      · cases ht : get_time_created_from_xml xml with
        | none => simp
        | some t =>
          by_cases hr : in_date_range t s e = true
          · by_cases hu : users.isEmpty = true
            · simp [hin, hr, hu]
            · cases hu' : get_target_user_name_from_xml xml with
              | none => simp [hin, hr, hu]
              | some u =>
                by_cases hmem : u ∈ users <;> simp [hin, hr, hu, hmem]
          · simp [hin, hr]
      · simp [hin]

/-- C8: a per-record decode error and a per-record schema mismatch are
non-fatal: the record alone is skipped, the rest of the file's stream is
processed unchanged, and no error propagates (the pipeline is total). -/
theorem claim8_decode_error_nonfatal (users : List String) (s e : Option DateTime)
    (msg : String) (xml : XmlDoc) (pre post : List (Except String XmlDoc))
    (hbad : from_str xml = none) :
    processRecord users s e (Except.error msg) = [] ∧
    processRecord users s e (Except.ok xml) = [] ∧
    process_evtx_file (pre ++ Except.error msg :: post) users s e =
      process_evtx_file pre users s e ++ process_evtx_file post users s e := by
  refine ⟨rfl, ?_, ?_⟩
  · simp [processRecord, get_event_id_from_xml, hbad]
  · simp [process_evtx_file, List.flatMap_append, List.flatMap_cons, processRecord]

/-- Witness for C8: a decode error between two good records, and a record
with no `<System>` element. -/
theorem claim8_witness :
    processRecord [] none none (Except.error "bad record") = [] ∧
    processRecord [] none none (Except.ok xmlNoSystem) = [] ∧
    process_evtx_file ([Except.ok xmlGood] ++ Except.error "bad record" :: [Except.ok xmlGood])
        [] none none =
      process_evtx_file [Except.ok xmlGood] [] none none ++
        process_evtx_file [Except.ok xmlGood] [] none none :=
  claim8_decode_error_nonfatal [] none none "bad record" xmlNoSystem
    [Except.ok xmlGood] [Except.ok xmlGood] (by decide)

/-- C9: a record whose XML lacks an `EventData` element fails full
deserialization (the field has no serde default), so category extraction
returns none and the record is excluded even with no bounds and no
allow-list. -/
theorem claim9_missing_eventdata (xml : XmlDoc) (h : xml.eventData = none) :
    from_str xml = none ∧ get_event_id_from_xml xml = none ∧
      processRecord [] none none (Except.ok xml) = [] := by
  have hf : from_str xml = none := by
    unfold from_str
    cases hs : xml.system with
    | none => rfl
    | some sys =>
      cases he : sys.eventID with
      | none => simp [he]
      | some eid => simp [he, h]
  exact ⟨hf, by simp [get_event_id_from_xml, hf],
    by simp [processRecord, get_event_id_from_xml, hf]⟩

/-- Witness for C9 at a record with `EventID` 4624 (in the allow-set), a
parseable timestamp, but no `EventData`. -/
theorem claim9_witness :
    from_str xmlNoED = none ∧ get_event_id_from_xml xmlNoED = none ∧
      processRecord [] none none (Except.ok xmlNoED) = [] :=
  claim9_missing_eventdata xmlNoED rfl

/-- C10: `parse_time_created` accepts the layout `%Y-%m-%d %H:%M:%S%.f UTC`
(fraction optional, literal trailing ` UTC`), rejects ISO-8601 layouts with
a `T` separator or a `Z` or numeric-offset suffix, and every accepted
string ends with the literal characters `UTC`. -/
theorem claim10_time_layout :
    parse_time_created "2024-08-18 13:45:55.479781 UTC" =
        some ⟨2024, 8, 18, 13, 45, 55, 479781000⟩ ∧
    parse_time_created "2024-08-18 13:45:55 UTC" = some ⟨2024, 8, 18, 13, 45, 55, 0⟩ ∧
    parse_time_created "2024-08-18T13:45:55.479781Z" = none ∧
    parse_time_created "2024-08-18T13:45:55.479781 UTC" = none ∧
    parse_time_created "2024-08-18 13:45:55.479781Z" = none ∧
    parse_time_created "2024-08-18T13:45:55.479781+00:00" = none ∧
    ∀ (s : String) (t : DateTime), parse_time_created s = some t → ['U', 'T', 'C'] <:+ s.data :=
  ⟨by decide, by decide, by decide, by decide, by decide, by decide,
    parse_time_created_utc_suffix⟩

/-- Witness for C10's universal part at a concrete accepted string. -/
theorem claim10_witness : ['U', 'T', 'C'] <:+ ("2024-08-18 13:45:55 UTC" : String).data :=
  claim10_time_layout.2.2.2.2.2.2 "2024-08-18 13:45:55 UTC" ⟨2024, 8, 18, 13, 45, 55, 0⟩
    (by decide)

/-- C3: for every timestamp `t` and optional bounds, `in_date_range`
returns true iff (`start` absent or `t ≥ start`) and (`end` absent or
`t ≤ end`); both bounds inclusive, an absent bound unconstraining. -/
theorem claim3_in_date_range_iff (t : DateTime) (s e : Option DateTime) :
    in_date_range t s e = true ↔
      (s = none ∨ ∃ b, s = some b ∧ b.le t = true) ∧
      (e = none ∨ ∃ b, e = some b ∧ t.le b = true) := by
  cases s <;> cases e <;>
    simp [in_date_range, beforeStart, afterEnd, DateTime.lt, DateTime.le, Int.not_lt]

/-- C4: every date-only argument in the form `YYYY-MM-DD` accepted by
`parse_date` yields midnight UTC (00:00:00.000000000) at the start of that
date. -/
theorem claim4_parse_date_midnight (s : String) (dt : DateTime)
    (hform : isDateOnlyForm s = true) (hacc : parse_date s = some dt) :
    dt = ⟨(dateOnlyYMD s).1, (dateOnlyYMD s).2.1, (dateOnlyYMD s).2.2, 0, 0, 0, 0⟩ := by
  unfold isDateOnlyForm at hform
  split at hform
  next a b c d h1 e f h2 g h heq =>
    simp only [Bool.and_eq_true, decide_eq_true_eq] at hform
    obtain ⟨⟨⟨⟨⟨⟨⟨⟨⟨ha, hb⟩, hc⟩, hd⟩, hh1⟩, he⟩, hf⟩, hh2⟩, hg⟩, hh⟩ := hform
    subst hh1
    subst hh2
    unfold parse_date datetime_from_str at hacc
    rw [string_data_append, heq,
      parseYmdHms_dateform a b c d e f g h ha hb hc hd he hf hg hh] at hacc
    simp only [eq_self_iff_true, if_true] at hacc
    unfold mkDateTime at hacc
    by_cases hv : dateValid (charsToNat [a, b, c, d] : Int) (charsToNat [e, f])
        (charsToNat [g, h]) = true ∧ (0 : Nat) ≤ 23 ∧ (0 : Nat) ≤ 59 ∧ (0 : Nat) ≤ 60
    · rw [if_pos hv, if_neg (by decide : ¬((0 : Nat) = 60))] at hacc
      injection hacc with h'
      simp only [dateOnlyYMD, heq]
      exact h'.symm
    · rw [if_neg hv] at hacc
      exact Option.noConfusion hacc
  next => simp at hform

/-- Witness for C4 at the concrete argument `2024-01-15`. -/
theorem claim4_witness :
    (⟨2024, 1, 15, 0, 0, 0, 0⟩ : DateTime) =
      ⟨(dateOnlyYMD "2024-01-15").1, (dateOnlyYMD "2024-01-15").2.1,
        (dateOnlyYMD "2024-01-15").2.2, 0, 0, 0, 0⟩ :=
  claim4_parse_date_midnight "2024-01-15" ⟨2024, 1, 15, 0, 0, 0, 0⟩ (by decide) (by decide)

end Evtx
